import Mathlib

/-!
Verification of the response-decoration layer and retry/throttle policy of the
FamilySearch JavaScript SDK, as described by its documentation overview
(src/overview.js).  The repository ships only that prose overview, so the
operational definitions below are shallow embeddings modelled from the
specification text rather than translated from executable JavaScript.
-/

namespace FamilySearchSDK

/-- Modelled from the spec: a Raw Response is an opaque JSON payload, treated as
a mapping from string keys to nested JSON values (objects, arrays, scalars).
The repository contains no executable JSON code, only the overview prose. -/
inductive Json where
  | null : Json
  | bool : Bool → Json
  | num : Int → Json
  | str : String → Json
  | arr : List Json → Json
  | obj : List (String × Json) → Json

/-- Modelled from the spec: navigating to a field of a JSON object.  A missing
key or a non-object shape yields the absence indicator none. -/
def Json.getField : Json → String → Option Json
  | Json.obj fields, k => fields.lookup k
  | _, _ => none

/-- Modelled from the spec: viewing a JSON value as a string, with none as the
absence indicator for any other shape. -/
def Json.asString : Json → Option String
  | Json.str s => some s
  | _ => none

/-- Modelled from the spec: viewing a JSON value as an array, with none as the
absence indicator for any other shape. -/
def Json.asArr : Json → Option (List Json)
  | Json.arr xs => some xs
  | _ => none

/-- Modelled from the spec: the test "part whose type element equals the given
tag" used by the name accessors. -/
def partHasType (tag : String) (p : Json) : Bool :=
  match Json.getField p "type" with
  | some (Json.str t) => t == tag
  | _ => false

/-- Modelled from the spec: the nameForms array of a Raw Response, empty when
the field is missing or malformed. -/
def nameFormsOf (raw : Json) : List Json :=
  ((Json.getField raw "nameForms").bind Json.asArr).getD []

/-- Modelled from the spec: the parts array of a name form, empty when the
field is missing or malformed. -/
def partsOf (nf : Json) : List Json :=
  ((Json.getField nf "parts").bind Json.asArr).getD []

/-- Modelled from the spec: all parts elements of the nameForms array of a Raw
Response. -/
def allParts (raw : Json) : List Json :=
  (nameFormsOf raw).flatMap partsOf

/-- Modelled from the spec: the navigation rule of the name accessors — find
the part whose type element equals the given tag and return its value element;
if no matching element exists, return the absence indicator none. -/
def getPartValue (tag : String) (raw : Json) : Option String :=
  match (allParts raw).find? (partHasType tag) with
  | some p => (Json.getField p "value").bind Json.asString
  | none => none

def givenTag : String := "http://gedcomx.org/Given"

def surnameTag : String := "http://gedcomx.org/Surname"

/-- Modelled from the spec: the getGivenName convenience function of Person. -/
def getGivenName (raw : Json) : Option String := getPartValue givenTag raw

/-- Modelled from the spec: the getSurname convenience function of Person. -/
def getSurname (raw : Json) : Option String := getPartValue surnameTag raw

/-- The overview's example Raw Response for a Person with given name John and
surname Smith. -/
def johnSmithRaw : Json :=
  Json.obj [("nameForms", Json.arr [Json.obj [("parts", Json.arr
    [Json.obj [("type", Json.str givenTag), ("value", Json.str "John")],
     Json.obj [("type", Json.str surnameTag), ("value", Json.str "Smith")]])]])]

/-- Modelled from the spec: an accessor capability is a named, pure navigation
function over the Raw Response; its result uses none as the absence
indicator. -/
structure Accessor where
  name : String
  run : Json → Option Json

/-- Modelled from the spec: the shared capability set for resource types — a
registry associating resource-type tags with accessor capabilities (the
reimplementation of prototype extension suggested by the design notes). -/
abbrev Registry := List (String × Accessor)

/-- Modelled from the spec: a Decorated Response keeps the Raw Response intact
and carries only its resource-type tag; capabilities live in the shared
registry rather than in per-instance copies. -/
structure Decorated where
  typeTag : String
  raw : Json

/-- Modelled from the spec: decoration wraps a Raw Response for a resource
type, leaving every field of the payload untouched. -/
def decorate (t : String) (raw : Json) : Decorated :=
  ⟨t, raw⟩

/-- Modelled from the spec: resolving an accessor name against the shared
capability set of a resource type; later registrations shadow earlier ones. -/
def lookupAccessor (reg : Registry) (t n : String) : Option Accessor :=
  ((reg.filter fun p => p.1 == t).map Prod.snd).find? fun a => a.name == n

/-- Modelled from the spec: calling an accessor on a Decorated Response
resolves the name in the shared registry at call time and applies the
capability to the untouched Raw Response. -/
def callAccessor (reg : Registry) (d : Decorated) (n : String) : Option (Option Json) :=
  (lookupAccessor reg d.typeTag n).map fun a => a.run d.raw

/-- Modelled from the spec: registering a new accessor capability on a
resource type's shared capability set. -/
def registerAccessor (reg : Registry) (t : String) (a : Accessor) : Registry :=
  (t, a) :: reg

def givenNameAccessor : Accessor :=
  ⟨"getGivenName", fun raw => (getPartValue givenTag raw).map Json.str⟩

def surnameAccessor : Accessor :=
  ⟨"getSurname", fun raw => (getPartValue surnameTag raw).map Json.str⟩

/-- Modelled from the spec: the built-in capability set of the Person resource
type. -/
def personRegistry : Registry :=
  [("Person", givenNameAccessor), ("Person", surnameAccessor)]

/-- HTTP methods distinguished by the retry policy. -/
inductive Method where
  | GET | POST | PUT | DELETE
  deriving DecidableEq

/-- Modelled from the spec: the error information surfaced by the configured
http function on a failed call — status code, headers and body. -/
structure HttpError where
  status : Nat
  headers : List (String × String)
  body : String
  deriving DecidableEq

/-- Modelled from the spec: the possible outcomes of one Transport Adapter
attempt — success with a Raw Response, a transient transport failure, a
throttling signal, or a terminal (non-retriable) failure. -/
inductive Outcome where
  | success : Json → Outcome
  | transient : HttpError → Outcome
  | throttled : HttpError → Outcome
  | terminal : HttpError → Outcome

/-- The error information carried by a failed outcome. -/
def Outcome.errorOf : Outcome → Option HttpError
  | Outcome.success _ => none
  | Outcome.transient e => some e
  | Outcome.throttled e => some e
  | Outcome.terminal e => some e

def isGet : Method → Bool
  | Method.GET => true
  | _ => false

/-- Modelled from the spec: which failed attempts the policy retries — GETs on
transient failures, any method on a throttling signal, nothing else. -/
def retriable (m : Method) (o : Outcome) : Bool :=
  match o with
  | Outcome.success _ => false
  | Outcome.transient _ => isGet m
  | Outcome.throttled _ => true
  | Outcome.terminal _ => false

/-- Modelled from the spec: strictly sequential attempts against the Transport
Adapter, numbered by the oracle index, retrying while the outcome is
retriable and the retry budget lasts.  Returns one past the index of the last
attempt made (so the first component is the number of Transport Adapter
invocations when started at index 0) together with the final outcome. -/
def runAttemptsFrom (m : Method) (oracle : Nat → Outcome) : Nat → Nat → Nat × Outcome
  | i, 0 => (i + 1, oracle i)
  | i, Nat.succ b =>
      if retriable m (oracle i) then runAttemptsFrom m oracle (i + 1) b
      else (i + 1, oracle i)

/-- Modelled from the spec: the delivered result of a call — a Decorated
Response through fulfillment, or the original error through rejection. -/
inductive CallResult where
  | fulfilled : Decorated → CallResult
  | rejected : HttpError → CallResult

/-- Modelled from the spec: a whole call — sequential attempts under the retry
policy, then decoration of the Raw Response on success or rejection with the
last error otherwise. -/
def runCall (t : String) (m : Method) (budget : Nat) (oracle : Nat → Outcome) : CallResult :=
  match (runAttemptsFrom m oracle 0 budget).2 with
  | Outcome.success raw => CallResult.fulfilled (decorate t raw)
  | Outcome.transient e => CallResult.rejected e
  | Outcome.throttled e => CallResult.rejected e
  | Outcome.terminal e => CallResult.rejected e

/-- A callback invocation observed by the caller. -/
inductive CallbackEvent where
  | success : Decorated → CallbackEvent
  | error : HttpError → CallbackEvent

/-- Modelled from the spec: the sequence of callback invocations a call
produces — the promise calls the success callback with the single Decorated
Response when fulfilled, or the error callback with the original error when
rejected. -/
def callbackTrace (t : String) (m : Method) (budget : Nat) (oracle : Nat → Outcome) :
    List CallbackEvent :=
  match runCall t m budget oracle with
  | CallResult.fulfilled d => [CallbackEvent.success d]
  | CallResult.rejected e => [CallbackEvent.error e]

/-- Modelled from the spec: how the configured http function invokes the
caller's success and error callbacks on a result. -/
def httpDispatch {α : Type} (r : Except HttpError Json)
    (onSuccess : Json → α) (onError : HttpError → α) : α :=
  match r with
  | Except.ok d => onSuccess d
  | Except.error e => onError e

/-- Modelled from the spec: a plumbing function passes the http function's
result through without transformation or decoration. -/
def plumbingCall (r : Except HttpError Json) : Except HttpError Json := r

/-- Modelled from the spec: the promise returned by a plumbing function
invokes the caller's callbacks on the plumbing result. -/
def plumbingDispatch {α : Type} (r : Except HttpError Json)
    (onSuccess : Json → α) (onError : HttpError → α) : α :=
  httpDispatch (plumbingCall r) onSuccess onError

/-! Demonstration data used by the witnesses below. -/

def demoError : HttpError := ⟨500, [("connection", "reset")], "server error"⟩

def throttleError : HttpError := ⟨429, [("rate", "limited")], "throttled"⟩

/-- A transport history: two transient failures, then success. -/
def demoOracle : Nat → Outcome
  | 0 => Outcome.transient demoError
  | 1 => Outcome.transient demoError
  | _ => Outcome.success johnSmithRaw

/-- A transport history: one throttling signal, then success. -/
def demoThrottleOracle : Nat → Outcome
  | 0 => Outcome.throttled throttleError
  | _ => Outcome.success johnSmithRaw

/-- A transport history that only ever throttles. -/
def demoExhaustOracle : Nat → Outcome
  | _ => Outcome.throttled throttleError

/-- A caller-registered accessor capability, as in the overview's
getNameAndId example. -/
def nameAndIdAccessor : Accessor :=
  ⟨"getNameAndId", fun raw => Json.getField raw "id"⟩

/-! Helper lemmas about the retry loop. -/

/-- A run whose first k attempts are transient failures of a GET and whose
attempt k succeeds, within budget, ends in that success. -/
theorem snd_runAttemptsFrom_transient (raw : Json) (oracle : Nat → Outcome) :
    ∀ k start budget : Nat, k ≤ budget →
      (∀ j, j < k → ∃ e, oracle (start + j) = Outcome.transient e) →
      oracle (start + k) = Outcome.success raw →
      (runAttemptsFrom Method.GET oracle start budget).2 = Outcome.success raw := by
  intro k
  induction k with
  | zero =>
      intro start budget _ _ hs
      rw [Nat.add_zero] at hs
      match budget with
      | 0 => simp [runAttemptsFrom, hs]
      | Nat.succ b => simp [runAttemptsFrom, hs, retriable]
  | succ k ih =>
      intro start budget hk htr hs
      match budget with
      | 0 => omega
      | Nat.succ b =>
          obtain ⟨e, he⟩ := htr 0 (Nat.succ_pos k)
          rw [Nat.add_zero] at he
          have hr : retriable Method.GET (oracle start) = true := by
            rw [he]; rfl
          simp only [runAttemptsFrom]
          rw [if_pos hr]
          apply ih (start + 1) b (by omega)
          · intro j hj
            obtain ⟨e', he'⟩ := htr (j + 1) (by omega)
            refine ⟨e', ?_⟩
            rw [show start + 1 + j = start + (j + 1) by omega]
            exact he'
          · rw [show start + 1 + k = start + (k + 1) by omega]
            exact hs

/-- A run against an always-successful transport ends in that success. -/
theorem snd_runAttemptsFrom_const_success (m : Method) (raw : Json)
    (start budget : Nat) :
    (runAttemptsFrom m (fun _ => Outcome.success raw) start budget).2
      = Outcome.success raw := by
  match budget with
  | 0 => rfl
  | Nat.succ b => simp [runAttemptsFrom, retriable]

/-- Every attempt that was followed by another attempt had a retriable
outcome. -/
theorem retriable_of_retried (m : Method) (oracle : Nat → Outcome) :
    ∀ budget start i : Nat, start ≤ i →
      i + 1 < (runAttemptsFrom m oracle start budget).1 →
      retriable m (oracle i) = true := by
  intro budget
  induction budget with
  | zero =>
      intro start i h1 h2
      simp only [runAttemptsFrom] at h2
      exact absurd h1 (by omega)
  | succ b ih =>
      intro start i h1 h2
      by_cases hr : retriable m (oracle start) = true
      · rcases Nat.eq_or_lt_of_le h1 with heq | hlt
        · rw [← heq]; exact hr
        · simp only [runAttemptsFrom] at h2
          rw [if_pos hr] at h2
          exact ih (start + 1) i hlt h2
      · simp only [runAttemptsFrom] at h2
        rw [if_neg hr] at h2
        exact absurd h1 (by omega)

/-- A run all of whose budgeted attempts are retriable uses the whole budget
and ends with the outcome of the final attempt. -/
theorem runAttemptsFrom_exhaust (m : Method) (oracle : Nat → Outcome) :
    ∀ budget start : Nat,
      (∀ j, j < budget → retriable m (oracle (start + j)) = true) →
      runAttemptsFrom m oracle start budget
        = (start + budget + 1, oracle (start + budget)) := by
  intro budget
  induction budget with
  | zero => intro start _; simp [runAttemptsFrom]
  | succ b ih =>
      intro start hall
      have h0 : retriable m (oracle start) = true := by
        have h := hall 0 (Nat.succ_pos b)
        rwa [Nat.add_zero] at h
      simp only [runAttemptsFrom]
      rw [if_pos h0]
      have hrec := ih (start + 1) (fun j hj => by
        have h := hall (j + 1) (by omega)
        rwa [show start + (j + 1) = start + 1 + j by omega] at h)
      rw [hrec, show start + 1 + b = start + (b + 1) by omega]

/-- The shared capability set resolves a freshly registered accessor by its
name, for the resource type it was registered under. -/
theorem lookupAccessor_registered (reg : Registry) (t : String) (a : Accessor) :
    lookupAccessor (registerAccessor reg t a) t a.name = some a := by
  unfold lookupAccessor registerAccessor
  rw [List.filter_cons_of_pos (by simp)]
  rw [List.map_cons]
  rw [List.find?_cons_of_pos _ (by simp)]

/-! The claim theorems. -/

/-- C1: if the navigation rule of a name accessor finds no matching part in a
Raw Response (the expected nested field is missing or malformed, so the list
of candidate parts contains no part of the requested type), the accessor
returns the absence indicator none rather than failing; the accessor is a
total function, so evaluation is deterministic and never throws. -/
theorem accessor_absence_total (tag : String) (raw : Json)
    (h : ∀ p ∈ allParts raw, partHasType tag p = false) :
    getPartValue tag raw = none := by
  unfold getPartValue
  rw [List.find?_eq_none.mpr fun p hp => by simp [h p hp]]

theorem accessor_absence_total_witness :
    getPartValue givenTag (Json.obj [("names", Json.str "missing shape")]) = none :=
  accessor_absence_total givenTag (Json.obj [("names", Json.str "missing shape")])
    (by intro p hp
        have hnil : allParts (Json.obj [("names", Json.str "missing shape")]) = [] := rfl
        rw [hnil] at hp
        exact absurd hp (List.not_mem_nil p))

/-- C2: a GET call whose first k attempts fail transiently and whose attempt k
succeeds, within the retry budget, delivers the same Decorated Response as a
call whose first attempt succeeds directly; exactly one Decorated Response
reaches the success callback and the error callback is never invoked. -/
theorem get_retry_refines_direct_success (t : String) (raw : Json)
    (oracle : Nat → Outcome) (budget k : Nat) (hk : k ≤ budget)
    (htr : ∀ j, j < k → ∃ e, oracle j = Outcome.transient e)
    (hs : oracle k = Outcome.success raw) :
    runCall t Method.GET budget oracle
        = runCall t Method.GET budget (fun _ => Outcome.success raw) ∧
      callbackTrace t Method.GET budget oracle
        = [CallbackEvent.success (decorate t raw)] ∧
      ∀ e, CallbackEvent.error e ∉ callbackTrace t Method.GET budget oracle := by
  have h1 : (runAttemptsFrom Method.GET oracle 0 budget).2 = Outcome.success raw := by
    apply snd_runAttemptsFrom_transient raw oracle k 0 budget hk
    · intro j hj
      simpa using htr j hj
    · simpa using hs
  have h2 := snd_runAttemptsFrom_const_success Method.GET raw 0 budget
  have hrc : runCall t Method.GET budget oracle
      = CallResult.fulfilled (decorate t raw) := by
    unfold runCall
    rw [h1]
  have hrc2 : runCall t Method.GET budget (fun _ => Outcome.success raw)
      = CallResult.fulfilled (decorate t raw) := by
    unfold runCall
    rw [h2]
  have htrace : callbackTrace t Method.GET budget oracle
      = [CallbackEvent.success (decorate t raw)] := by
    unfold callbackTrace
    rw [hrc]
  refine ⟨by rw [hrc, hrc2], htrace, ?_⟩
  intro e
  rw [htrace]
  simp

theorem get_retry_refines_direct_success_witness :
    (runCall "Person" Method.GET 3 demoOracle
        = runCall "Person" Method.GET 3 (fun _ => Outcome.success johnSmithRaw) ∧
      callbackTrace "Person" Method.GET 3 demoOracle
        = [CallbackEvent.success (decorate "Person" johnSmithRaw)] ∧
      ∀ e, CallbackEvent.error e ∉ callbackTrace "Person" Method.GET 3 demoOracle) :=
  get_retry_refines_direct_success "Person" johnSmithRaw demoOracle 3 2
    (by omega)
    (by intro j hj
        interval_cases j <;> exact ⟨demoError, rfl⟩)
    rfl

/-- C3: on a non-idempotent call (POST, PUT or DELETE) every attempt that was
followed by another attempt was a throttling signal; in particular the
Transport Adapter is invoked at most once unless a failure is specifically a
throttling signal, and non-throttling failures are never retried. -/
theorem non_idempotent_retried_only_on_throttle (m : Method) (hm : m ≠ Method.GET)
    (oracle : Nat → Outcome) (budget i : Nat)
    (hi : i + 1 < (runAttemptsFrom m oracle 0 budget).1) :
    ∃ e, oracle i = Outcome.throttled e := by
  have hr := retriable_of_retried m oracle budget 0 i (Nat.zero_le i) hi
  match ho : oracle i with
  | Outcome.success r => rw [ho] at hr; simp [retriable] at hr
  | Outcome.transient e =>
      rw [ho] at hr
      have hg : isGet m = true := hr
      cases m with
      | GET => exact absurd rfl hm
      | POST => simp [isGet] at hg
      | PUT => simp [isGet] at hg
      | DELETE => simp [isGet] at hg
  | Outcome.throttled e => exact ⟨e, rfl⟩
  | Outcome.terminal e => rw [ho] at hr; simp [retriable] at hr

theorem non_idempotent_retried_only_on_throttle_witness :
    ∃ e, demoThrottleOracle 0 = Outcome.throttled e :=
  non_idempotent_retried_only_on_throttle Method.POST (by decide)
    demoThrottleOracle 3 0 (by decide)

/-- C4: decoration neither alters nor removes any field of the Raw Response —
the Decorated Response carries the Raw Response unchanged, so every field
lookup on it agrees with a lookup on the original payload. -/
theorem decoration_preserves_raw (t : String) (raw : Json) :
    (decorate t raw).raw = raw ∧
      ∀ k, Json.getField (decorate t raw).raw k = Json.getField raw k :=
  ⟨rfl, fun _ => rfl⟩

/-- C5: decorating the same Raw Response twice yields Decorated Responses with
identical accessor results, and re-decorating the payload of a Decorated
Response reproduces that Decorated Response exactly. -/
theorem decoration_idempotent (reg : Registry) (t : String) (raw : Json)
    (d1 d2 : Decorated) (h1 : d1 = decorate t raw) (h2 : d2 = decorate t raw) :
    decorate t d1.raw = d1 ∧
      ∀ n, callAccessor reg d1 n = callAccessor reg d2 n := by
  subst h1
  subst h2
  exact ⟨rfl, fun _ => rfl⟩

theorem decoration_idempotent_witness :
    decorate "Person" (decorate "Person" johnSmithRaw).raw
        = decorate "Person" johnSmithRaw ∧
      ∀ n, callAccessor personRegistry (decorate "Person" johnSmithRaw) n
          = callAccessor personRegistry (decorate "Person" johnSmithRaw) n :=
  decoration_idempotent personRegistry "Person" johnSmithRaw
    (decorate "Person" johnSmithRaw) (decorate "Person" johnSmithRaw) rfl rfl

/-- C6: registering a new accessor capability on a resource type's shared
capability set makes it callable on every Decorated Response of that type —
including instances created before the registration, since instances share
the registry rather than holding copies of it. -/
theorem registered_accessor_callable_on_existing (reg : Registry) (t : String)
    (a : Accessor) (d : Decorated) (hd : d.typeTag = t) :
    callAccessor (registerAccessor reg t a) d a.name = some (a.run d.raw) := by
  unfold callAccessor
  rw [hd, lookupAccessor_registered]
  rfl

theorem registered_accessor_callable_on_existing_witness :
    callAccessor (registerAccessor personRegistry "Person" nameAndIdAccessor)
        (decorate "Person" johnSmithRaw) nameAndIdAccessor.name
      = some (nameAndIdAccessor.run (decorate "Person" johnSmithRaw).raw) :=
  registered_accessor_callable_on_existing personRegistry "Person"
    nameAndIdAccessor (decorate "Person" johnSmithRaw) rfl

/-- C7: when the whole retry budget is used up, the call is rejected with
exactly the error information of the final failed attempt — status code,
headers and body intact, nothing swallowed. -/
theorem exhausted_budget_delivers_last_error (t : String) (m : Method)
    (oracle : Nat → Outcome) (budget : Nat) (e : HttpError)
    (hall : ∀ j, j < budget → retriable m (oracle j) = true)
    (hlast : Outcome.errorOf (oracle budget) = some e) :
    runCall t m budget oracle = CallResult.rejected e := by
  have hsnd : (runAttemptsFrom m oracle 0 budget).2 = oracle budget := by
    have h := runAttemptsFrom_exhaust m oracle budget 0
      (fun j hj => by simpa using hall j hj)
    simp only [Nat.zero_add] at h
    rw [h]
  cases ho : oracle budget with
  | success r =>
      rw [ho] at hlast
      exact absurd hlast (by simp [Outcome.errorOf])
  | transient e' =>
      rw [ho] at hlast
      have he : e' = e := by simpa [Outcome.errorOf] using hlast
      unfold runCall
      rw [hsnd, ho, he]
  | throttled e' =>
      rw [ho] at hlast
      have he : e' = e := by simpa [Outcome.errorOf] using hlast
      unfold runCall
      rw [hsnd, ho, he]
  | terminal e' =>
      rw [ho] at hlast
      have he : e' = e := by simpa [Outcome.errorOf] using hlast
      unfold runCall
      rw [hsnd, ho, he]

theorem exhausted_budget_delivers_last_error_witness :
    runCall "Person" Method.PUT 2 demoExhaustOracle
      = CallResult.rejected throttleError :=
  exhausted_budget_delivers_last_error "Person" Method.PUT demoExhaustOracle 2
    throttleError (fun _ _ => rfl) rfl

/-- C8: the overview's example Raw Response, decorated as a Person, yields
John from getGivenName and Smith from getSurname — each accessor finds the
part whose type field equals its tag and returns that part's value field. -/
theorem person_example_name_parts :
    getGivenName johnSmithRaw = some "John" ∧
      getSurname johnSmithRaw = some "Smith" ∧
      callAccessor personRegistry (decorate "Person" johnSmithRaw) "getGivenName"
          = some (some (Json.str "John")) ∧
      callAccessor personRegistry (decorate "Person" johnSmithRaw) "getSurname"
          = some (some (Json.str "Smith")) :=
  ⟨rfl, rfl, rfl, rfl⟩

/-- C9: accessor results are a pure function of the Raw Response's fields —
two Decorated Responses built from equal Raw Responses return equal results
from every accessor, with no hidden state or side channel. -/
theorem accessor_results_pure_in_raw (reg : Registry) (t : String)
    (r1 r2 : Json) (hr : r1 = r2) :
    ∀ n, callAccessor reg (decorate t r1) n = callAccessor reg (decorate t r2) n := by
  subst hr
  intro n
  rfl

theorem accessor_results_pure_in_raw_witness :
    callAccessor personRegistry (decorate "Person" johnSmithRaw) "getGivenName"
        = callAccessor personRegistry (decorate "Person" johnSmithRaw) "getGivenName" :=
  accessor_results_pure_in_raw personRegistry "Person" johnSmithRaw johnSmithRaw
    rfl "getGivenName"

/-- C10: the promise returned by a plumbing function invokes the caller's
success and error callbacks with exactly the arguments the configured http
function would invoke them with — the plumbing layer adds no transformation
or decoration. -/
theorem plumbing_callbacks_passthrough (α : Type) (r : Except HttpError Json)
    (onSuccess : Json → α) (onError : HttpError → α) :
    plumbingDispatch r onSuccess onError = httpDispatch r onSuccess onError :=
  rfl

end FamilySearchSDK
